import Mathlib

/-!
# Verification of the syllabus-to-calendar parsing core

A shallow embedding of the TypeScript sources of the syllabus-to-calendar
service (`api/services/syllabusParser.ts`, `api/services/llmParser.ts`,
`api/services/googleCalendarService.ts`, `api/utils/dateParser.ts`) together
with theorems settling the frozen specification claims.

Modelling conventions:
* JavaScript strings are Lean `String`s; all scanning is done on `String.data`
  (`List Char`).
* A JavaScript `Date` value is modelled as a count of days since 1970-01-01
  (`Int`); the time zone is taken to be UTC, and the time-of-day component
  (always midnight at every construction site of the core) is dropped.
* `Date | null` values are modelled as `Option Int`.
* Mutable `lastIndex` state of the `/g`-flagged class-level regexes in
  `SyllabusParserService` is threaded explicitly (it is the only cross-call
  mutable state in the parsing core).
* The external model call, and the external calendar insert call, are inputs
  of the functions that consume them.
-/

namespace SyllabusCore

/-! ## Basic JavaScript string primitives -/

/-- JavaScript `\s` on the ASCII range: space, tab, newline, carriage return,
vertical tab, form feed. -/
def jsWs (c : Char) : Bool :=
  c = ' ' || c = '\t' || c = '\n' || c = '\x0d' || c = '\x0b' || c = '\x0c'

/-- ASCII lower-casing, as `String.prototype.toLowerCase` acts on ASCII. -/
def lowerChar (c : Char) : Char :=
  if 'A' ≤ c ∧ c ≤ 'Z' then Char.ofNat (c.toNat + 32) else c

def lowerOf (cs : List Char) : List Char := cs.map lowerChar

/-- Case-insensitive character equality (JS `i` regex flag on ASCII). -/
def eqCI (a b : Char) : Bool := lowerChar a = lowerChar b

def isDigitCh (c : Char) : Bool := '0' ≤ c && c ≤ '9'

def digitVal (c : Char) : Nat := c.toNat - '0'.toNat

/-- `parseInt(s, 10)` on a string of decimal digits. -/
def digitsVal (cs : List Char) : Nat := cs.foldl (fun n c => n * 10 + digitVal c) 0

/-- `String.prototype.trim()`. -/
def trimWs (cs : List Char) : List Char :=
  ((cs.dropWhile jsWs).reverse.dropWhile jsWs).reverse

/-- Is `pat` a prefix of `cs`, comparing case-insensitively? -/
def isPrefixCI : List Char → List Char → Bool
  | [], _ => true
  | _ :: _, [] => false
  | p :: ps, c :: cs => eqCI p c && isPrefixCI ps cs

/-- Case-insensitive substring test (JS `lower.includes(lower)` composite). -/
def containsCI : List Char → List Char → Bool
  | _, [] => true
  | [], _ :: _ => false
  | c :: cs, pat => isPrefixCI pat (c :: cs) || containsCI cs pat

/-- Case-sensitive substring test (JS `String.prototype.includes`). -/
def isPrefixCS : List Char → List Char → Bool
  | [], _ => true
  | _ :: _, [] => false
  | p :: ps, c :: cs => p = c && isPrefixCS ps cs

def containsCS : List Char → List Char → Bool
  | _, [] => true
  | [], _ :: _ => false
  | c :: cs, pat => isPrefixCS pat (c :: cs) || containsCS cs pat

/-- `String.prototype.split('\n')`. -/
def splitNl (cs : List Char) : List (List Char) :=
  cs.foldr
    (fun c acc =>
      match acc with
      | [] => if c = '\n' then [[], []] else [[c]]
      | l :: ls => if c = '\n' then [] :: l :: ls else (c :: l) :: ls)
    [[]]

/-! ## Regex matching primitives

A matcher consumes a prefix of a character list and returns the remaining
suffix, or `none` if it does not match at this position.  The handful of
regex constructs used by the source (literals, `\s*`, `\s+`, `c?`, `\d+`,
bounded digit repetitions, alternation) are written as explicit
compositions; alternation with its continuation duplicated reproduces the
backtracking semantics of the JavaScript engine, and the greedy `\s*`/`\d+`
steps are exact because no pattern in the source follows them with a
character they could also consume. -/

abbrev Matcher := List Char → Option (List Char)

/-- A case-insensitive literal (all source regexes carry the `i` flag). -/
def mLit (pat : List Char) : Matcher := fun s =>
  if isPrefixCI pat s then some (s.drop pat.length) else none

/-- `\s*`. -/
def mWs0 : Matcher := fun s => some (s.dropWhile jsWs)

/-- `\s+`. -/
def mWs1 : Matcher := fun s =>
  match s with
  | c :: rest => if jsWs c then some (rest.dropWhile jsWs) else none
  | [] => none

/-- An optional single character, e.g. `#?` or `\.?`. -/
def mOptChar (c : Char) : Matcher := fun s =>
  match s with
  | c' :: rest => if eqCI c c' then some rest else some s
  | [] => some s

/-- `\d+`. -/
def mDigits1 : Matcher := fun s =>
  match s with
  | c :: _ => if isDigitCh c then some (s.dropWhile isDigitCh) else none
  | [] => none

/-- An optional trailing literal, e.g. `(exam)?`. -/
def mOptLit (pat : List Char) : Matcher := fun s =>
  match mLit pat s with
  | some rest => some rest
  | none => some s

/-- Exactly `n` digits. -/
def mNDigits (n : Nat) : Matcher := fun s =>
  let run := (s.takeWhile isDigitCh).length
  if n ≤ run then some (s.drop n) else none

/-- Search for the leftmost match of `p` in the given suffix, whose first
character sits at index `idx` of the full string; returns the start and end
indices of the match. -/
def searchList (p : Matcher) : List Char → Nat → Option (Nat × Nat)
  | [], idx =>
    match p [] with
    | some _ => some (idx, idx)
    | none => none
  | c :: cs, idx =>
    match p (c :: cs) with
    | some rest => some (idx, idx + ((c :: cs).length - rest.length))
    | none => searchList p cs (idx + 1)

/-- `regex.test(s)` for a `/g`-flagged regex object: the search starts at
`lastIndex`; on success `lastIndex` becomes the match end, on failure it is
reset to 0. -/
def testG (p : Matcher) (s : List Char) (lastIndex : Nat) : Bool × Nat :=
  if s.length < lastIndex then (false, 0)
  else
    match searchList p (s.drop lastIndex) lastIndex with
    | some (_, e) => (true, e)
    | none => (false, 0)

/-- `patterns.some(pattern => pattern.test(line))` over a family of
`/g`-flagged regex objects with their current `lastIndex` values:
short-circuits at the first successful test, leaving the remaining
patterns' `lastIndex` untouched. -/
def someTestG : List Matcher → List Nat → List Char → Bool × List Nat
  | [], lis, _ => (false, lis)
  | _ :: _, [], _ => (false, [])
  | p :: ps, li :: lis, s =>
    let r := testG p s li
    if r.1 then (true, r.2 :: lis)
    else
      let rec' := someTestG ps lis s
      (rec'.1, r.2 :: rec'.2)

/-- Pure (stateless) matching of a family: does any pattern match anywhere
in the string?  This is what a fresh regex (`lastIndex = 0`) tests. -/
def famMatches (pats : List Matcher) (s : List Char) : Bool :=
  pats.any fun p => (searchList p s 0).isSome

/-! ## The classification pattern families (`syllabusParser.ts` lines 14–50)

All 25 class-level patterns carry the `gi` flags; they are matched against
the already lower-cased line, and their `lastIndex` state persists across
calls (modelled by `PatState` below). -/

/-- `/kw\s*#?\s*(\d+)/` — the recurring keyword-number shape. -/
def kwNumPat (kw : String) : Matcher := fun s =>
  (mLit kw.data s).bind fun s =>
  (mWs0 s).bind fun s =>
  (mOptChar '#' s).bind fun s =>
  (mWs0 s).bind mDigits1

def ASSIGNMENT_PATTERNS : List Matcher :=
  [ kwNumPat "assignment"
  , kwNumPat "homework"
  , kwNumPat "hw"
  , fun s =>  -- /problem\s*set\s*#?\s*(\d+)/
      (mLit "problem".data s).bind fun s =>
      (mWs0 s).bind fun s =>
      (mLit "set".data s).bind fun s =>
      (mWs0 s).bind fun s =>
      (mOptChar '#' s).bind fun s =>
      (mWs0 s).bind mDigits1
  , kwNumPat "ps"
  , kwNumPat "paper"
  , kwNumPat "essay"
  , kwNumPat "project"
  , kwNumPat "memo"
  , kwNumPat "brief" ]

def EXAM_PATTERNS : List Matcher :=
  [ fun s => (mLit "midterm".data s).bind fun s => (mWs0 s).bind (mOptLit "exam".data)
  , fun s => (mLit "final".data s).bind fun s => (mWs0 s).bind (mOptLit "exam".data)
  , kwNumPat "exam"
  , kwNumPat "test"
  , kwNumPat "quiz" ]

def READING_PATTERNS : List Matcher :=
  [ fun s =>  -- /read\s+(chapter|ch\.?)\s*(\d+)/
      (mLit "read".data s).bind fun s =>
      (mWs1 s).bind fun s =>
        (((mLit "chapter".data s).bind fun s => (mWs0 s).bind mDigits1) <|>
         ((mLit "ch".data s).bind fun s =>
          (mOptChar '.' s).bind fun s => (mWs0 s).bind mDigits1))
  , kwNumPat "reading"
  , kwNumPat "case"
  , kwNumPat "article"
  , kwNumPat "textbook" ]

def DEADLINE_PATTERNS : List Matcher :=
  [ fun s =>  -- /due\s+(by|on|at)/
      (mLit "due".data s).bind fun s =>
      (mWs1 s).bind fun s =>
        (mLit "by".data s <|> mLit "on".data s <|> mLit "at".data s)
  , mLit "deadline".data
  , mLit "submit".data
  , fun s => (mLit "turn".data s).bind fun s => (mWs1 s).bind (mLit "in".data)
  , fun s => (mLit "hand".data s).bind fun s => (mWs1 s).bind (mLit "in".data) ]

/-- The `lastIndex` values of the four static pattern arrays. -/
structure PatState where
  assignment : List Nat
  exam : List Nat
  reading : List Nat
  deadline : List Nat
deriving DecidableEq, Repr

/-- The state of freshly created regex objects (process start). -/
def freshPatState : PatState :=
  { assignment := List.replicate 10 0
    exam := List.replicate 5 0
    reading := List.replicate 5 0
    deadline := List.replicate 5 0 }

/-! ## Civil calendar arithmetic

Day counts since the Unix epoch 1970-01-01; the standard era-based
conversion between day numbers and proleptic-Gregorian `(year, month, day)`
triples. -/

def isLeapYear (y : Int) : Bool := y % 4 = 0 && (y % 100 ≠ 0 || y % 400 = 0)

def daysInMonth (y m : Int) : Int :=
  if m = 1 then 31 else if m = 2 then (if isLeapYear y then 29 else 28)
  else if m = 3 then 31 else if m = 4 then 30 else if m = 5 then 31
  else if m = 6 then 30 else if m = 7 then 31 else if m = 8 then 31
  else if m = 9 then 30 else if m = 10 then 31 else if m = 11 then 30
  else 31

/-- A structurally valid proleptic-Gregorian calendar date. -/
def realDate (y m d : Int) : Bool :=
  1 ≤ m && m ≤ 12 && 1 ≤ d && d ≤ daysInMonth y m

/-- Day number (days since 1970-01-01) of a civil date. -/
def daysFromCivil (y m d : Int) : Int :=
  let y' := if m ≤ 2 then y - 1 else y
  let era := y'.ediv 400
  let yoe := y' - era * 400
  let mp := if m > 2 then m - 3 else m + 9
  let doy := (153 * mp + 2).ediv 5 + d - 1
  let doe := yoe * 365 + yoe.ediv 4 - yoe.ediv 100 + doy
  era * 146097 + doe - 719468

/-- Civil date `(y, m, d)` of a day number. -/
def civilFromDays (z : Int) : Int × Int × Int :=
  let z' := z + 719468
  let era := z'.ediv 146097
  let doe := z' - era * 146097
  let yoe := (doe - doe.ediv 1460 + doe.ediv 36524 - doe.ediv 146096).ediv 365
  let doy := doe - (365 * yoe + yoe.ediv 4 - yoe.ediv 100)
  let mp := (5 * doy + 2).ediv 153
  let d := doy - (153 * mp + 2).ediv 5 + 1
  let m := if mp < 10 then mp + 3 else mp - 9
  let y := yoe + era * 400 + (if m ≤ 2 then 1 else 0)
  (y, m, d)

def padNat (width n : Nat) : List Char :=
  let s := (Nat.repr n).data
  List.replicate (width - s.length) '0' ++ s

/-- `Date.prototype.toISOString().split('T')[0]` on a (valid) day number:
the `YYYY-MM-DD` rendering of its civil date. -/
def isoOfDay (z : Int) : List Char :=
  let c := civilFromDays z
  padNat 4 c.1.toNat ++ '-' :: padNat 2 c.2.1.toNat ++ '-' :: padNat 2 c.2.2.toNat

/-! ## Shared domain types

`EventType`, `Priority`, `CalendarEvent` and `ParsedSyllabus` are declared in
`api/types/shared.ts`, which is not part of the provided sources; the
declarations below are reconstructed from spec §3 and from every use site in
the provided code. -/

inductive EventType
  | assignment | exam | reading | class_ | deadline | other
deriving DecidableEq, Repr

inductive Priority
  | low | medium | high | urgent
deriving DecidableEq, Repr

structure CalendarEvent where
  id : String
  title : String
  description : Option String
  /-- Day number of the event's date (JS `Date`, always at UTC midnight at
  every construction site of the core). -/
  date : Int
  time : Option String := none
  type : EventType
  priority : Priority
  completed : Bool
deriving DecidableEq, Repr

structure ParsedSyllabus where
  courseName : String
  courseCode : String
  semester : Option String
  year : Option Int
  events : List CalendarEvent
  rawText : String
  /-- `new Date()` at parse time, as a day number. -/
  parsedAt : Int
deriving DecidableEq, Repr

inductive ParseMethod
  | llm | regex | fallback
deriving DecidableEq, Repr

/-- `ParsingResult` from `syllabusParser.ts`. -/
structure ParsingResult where
  success : Bool
  data : Option ParsedSyllabus := none
  error : Option String := none
  confidence : Int
  method : Option ParseMethod := none
deriving DecidableEq, Repr

/-- `replace(/\s+/g, rep)`: every maximal run of whitespace becomes one
`rep` character.  The boolean tracks whether the scanner is inside a
whitespace run. -/
def wsCollapse (rep : Char) : List Char → Bool → List Char
  | [], _ => []
  | c :: cs, inRun =>
    if jsWs c then
      if inRun then wsCollapse rep cs true else rep :: wsCollapse rep cs true
    else c :: wsCollapse rep cs false

def wsRunsToHyphen (cs : List Char) : List Char := wsCollapse '-' cs false

/-- A character kept by `replace(/[^a-z0-9-]/g, '')`. -/
def slugChar (c : Char) : Bool := ('a' ≤ c && c ≤ 'z') || isDigitCh c || c = '-'

/-- `generateEventId` as written in `syllabusParser.ts` (lines 291–295). -/
def generateEventId (title : String) (date : Int) : String :=
  let titleHash := (wsRunsToHyphen (lowerOf title.data)).filter slugChar
  ⟨titleHash ++ '-' :: isoOfDay date⟩

/-- `generateEventId` as written in `llmParser.ts` (lines 725–729). -/
def generateEventIdLLM (title : String) (date : Int) : String :=
  let titleHash := (wsRunsToHyphen (lowerOf title.data)).filter slugChar
  ⟨titleHash ++ '-' :: isoOfDay date⟩

/-- The id derivation as the claim describes it: the lowercased title with
whitespace runs replaced by hyphens and all characters outside `[a-z0-9-]`
removed, followed by a hyphen and the event date's ISO `YYYY-MM-DD` string. -/
def specEventId (title : String) (date : Int) : String :=
  ⟨((wsRunsToHyphen (lowerOf title.data)).filter slugChar) ++ ['-'] ++ isoOfDay date⟩

/-! ## Confidence scoring (`SyllabusParserService.calculateConfidence`) -/

structure DateParseResult where
  date : Option Int
  /-- Confidence tier: the source's `'high' | 'medium' | 'low'` strings. -/
  confidence : String
  originalText : String
  parsedFormat : Option String := none
deriving DecidableEq, Repr

/-- `calculateConfidence(events, dateResults, text)` (lines 314–343). -/
def calculateConfidence (events : List CalendarEvent)
    (dateResults : List DateParseResult) (text : String) : Int :=
  let validDates : Int := (dateResults.filter (fun d => d.date.isSome)).length
  let score₁ := min (validDates * 10) 30
  let score₂ := score₁ + min ((events.length : Int) * 5) 25
  let highConfidenceDates : Int :=
    (dateResults.filter (fun d => d.confidence = "high")).length
  let score₃ := score₂ + min (highConfidenceDates * 5) 20
  let uniqueTypes : Int := ((events.map (fun e => e.type)).dedup).length
  let score₄ := score₃ + uniqueTypes * 5
  let score₅ := if (text.length : Int) < 500 then score₄ - 20 else score₄
  max 0 (min 100 score₅)

/-! ## Line classification (`parseEventFromLine`, lines 227–271)

The four families are tested in the fixed order assignment → exam →
reading → deadline by an `else if` chain; each test threads the shared
`lastIndex` state of the class-level `/g` regexes. -/

def classifyLineSt (st : PatState) (lowerLine : List Char) :
    (EventType × Priority) × PatState :=
  let ra := someTestG ASSIGNMENT_PATTERNS st.assignment lowerLine
  if ra.1 then ((.assignment, .high), { st with assignment := ra.2 })
  else
    let st := { st with assignment := ra.2 }
    let re := someTestG EXAM_PATTERNS st.exam lowerLine
    if re.1 then ((.exam, .urgent), { st with exam := re.2 })
    else
      let st := { st with exam := re.2 }
      let rr := someTestG READING_PATTERNS st.reading lowerLine
      if rr.1 then ((.reading, .medium), { st with reading := rr.2 })
      else
        let st := { st with reading := rr.2 }
        let rd := someTestG DEADLINE_PATTERNS st.deadline lowerLine
        if rd.1 then ((.deadline, .high), { st with deadline := rd.2 })
        else ((.other, .medium), { st with deadline := rd.2 })

/-- The classification a single line receives from freshly created pattern
objects (`lastIndex = 0` everywhere), with the same trim + lower-case
preparation `parseEventFromLine` performs. -/
def classify (line : String) : EventType × Priority :=
  (classifyLineSt freshPatState (lowerOf (trimWs line.data))).1

/-! ## Title cleanup (`cleanEventTitle`, lines 276–286) -/

/-- JavaScript word character (`\w`), for `\b` boundaries. -/
def isWordCh (c : Char) : Bool :=
  ('a' ≤ c && c ≤ 'z') || ('A' ≤ c && c ≤ 'Z') || isDigitCh c || c = '_'

/-- `\b` at the end of a match: succeeds without consuming if the next
character is absent or a non-word character. -/
def mEndB : Matcher := fun s =>
  match s with
  | [] => some []
  | c :: _ => if isWordCh c then none else some s

/-- Remove every match of `p` (a matcher anchored at a leading `\b`
boundary, which for the word-character-initial patterns of the source means
the previous character must not be a word character) from the string,
scanning left to right and continuing after each match, as
`replace(/.../g, '')` does.  `prev` is the original character preceding the
current position.  Every pattern used with this engine consumes at least
one character; the length guard only certifies termination. -/
def removeMatchesBF (p : Matcher) : Nat → Option Char → List Char → List Char
  | 0, _, _ => []
  | _ + 1, _, [] => []
  | fuel + 1, prev, c :: cs =>
    if prev.all (fun pc => !isWordCh pc) then
      match p (c :: cs) with
      | some rest =>
        if rest.length < (c :: cs).length then
          removeMatchesBF p fuel
            ((c :: cs).get? ((c :: cs).length - rest.length - 1)) rest
        else c :: removeMatchesBF p fuel (some c) cs
      | none => c :: removeMatchesBF p fuel (some c) cs
    else c :: removeMatchesBF p fuel (some c) cs

/-- Every recursive step strictly shortens the string, so `length + 1` fuel
(which keeps the recursion structural, hence kernel-reducible) is never
exhausted. -/
def removeMatchesB (p : Matcher) (prev : Option Char) (s : List Char) : List Char :=
  removeMatchesBF p (s.length + 1) prev s

/-- Replace every match of `p` (no boundary requirement) with `repl`,
as `replace(/.../g, repl)` does. -/
def replaceAllPF (p : Matcher) (repl : List Char) : Nat → List Char → List Char
  | 0, _ => []
  | _ + 1, [] => []
  | fuel + 1, c :: cs =>
    match p (c :: cs) with
    | some rest =>
      if rest.length < (c :: cs).length then
        repl ++ replaceAllPF p repl fuel rest
      else c :: replaceAllPF p repl fuel cs
    | none => c :: replaceAllPF p repl fuel cs

def replaceAllP (p : Matcher) (repl : List Char) (s : List Char) : List Char :=
  replaceAllPF p repl (s.length + 1) s

/-- The `while ((match = pattern.exec(text)) !== null)` loop of a
`/g`-flagged regex with leading `\b`: collect the successive non-overlapping
matched substrings, left to right. -/
def collectBF (p : Matcher) : Nat → Option Char → List Char → List (List Char)
  | 0, _, _ => []
  | _ + 1, _, [] => []
  | fuel + 1, prev, c :: cs =>
    if prev.all (fun pc => !isWordCh pc) then
      match p (c :: cs) with
      | some rest =>
        if rest.length < (c :: cs).length then
          (c :: cs).take ((c :: cs).length - rest.length) ::
            collectBF p fuel ((c :: cs).get? ((c :: cs).length - rest.length - 1)) rest
        else collectBF p fuel (some c) cs
      | none => collectBF p fuel (some c) cs
    else collectBF p fuel (some c) cs

def collectB (p : Matcher) (prev : Option Char) (s : List Char) :
    List (List Char) :=
  collectBF p (s.length + 1) prev s

/-! ## Calendar sync (`GoogleCalendarService.syncEvents`, lines 175–207)

The per-event insert is an outbound network call; each event is paired with
the outcome of its own `calendar.events.insert` call (`none` = the insert
resolved, `some err` = it threw with error `err`). -/

structure GoogleCalendarSyncResult where
  success : Bool
  syncedEvents : Nat
  failedEvents : Nat
  errors : List String
  calendarId : String
deriving DecidableEq, Repr

def syncErrorMsg (title err : String) : String :=
  "Failed to sync \x22" ++ title ++ "\x22: " ++ err

def syncEventsLoop (items : List (CalendarEvent × Option String))
    (acc : GoogleCalendarSyncResult) : GoogleCalendarSyncResult :=
  match items with
  | [] => acc
  | (e, outcome) :: rest =>
    match outcome with
    | none => syncEventsLoop rest { acc with syncedEvents := acc.syncedEvents + 1 }
    | some err =>
      syncEventsLoop rest
        { acc with
          failedEvents := acc.failedEvents + 1
          errors := acc.errors ++ [syncErrorMsg e.title err] }

/-- `syncEvents(events, calendarId)` with the insert outcomes supplied
alongside the events. -/
def syncEvents (items : List (CalendarEvent × Option String))
    (calendarId : String := "primary") : GoogleCalendarSyncResult :=
  let result := syncEventsLoop items
    { success := true, syncedEvents := 0, failedEvents := 0, errors := [],
      calendarId := calendarId }
  { result with success := result.failedEvents = 0 }

/-! ## LLM response validation (`LLMParserService.parseLLMResponse`)

The shapes below model the value produced by `JSON.parse` on a model
response, following the `llm-schema.ts` interfaces but with every field the
validation code inspects made optional (the JSON may omit anything). -/

structure LLMAssignmentRaw where
  title : String
  due_date : Option String := none
  details : Option String := none
  priority : Option String := none
deriving DecidableEq, Repr

structure LLMExamRaw where
  title : String
  date : Option String := none
  time : Option String := none
  details : Option String := none
  priority : Option String := none
deriving DecidableEq, Repr

structure LLMActivityRaw where
  title : String
  details : Option String := none
  type : Option String := none
  priority : Option String := none
deriving DecidableEq, Repr

structure CourseInfoRaw where
  course_name : Option String := none
  course_code : Option String := none
  semester : Option String := none
  year : Option Int := none
deriving DecidableEq, Repr

/-- The parsed JSON object; `none` in the three list fields models a missing
or null field (a present-but-empty array is `some []`, which is truthy in
JavaScript). -/
structure LLMResponseRaw where
  assignments : Option (List LLMAssignmentRaw) := none
  exams : Option (List LLMExamRaw) := none
  activities : Option (List LLMActivityRaw) := none
  course_info : Option CourseInfoRaw := none
  confidence_score : Option Int := none
deriving DecidableEq, Repr

/-- The validated/repaired response (`LLMParsedSyllabus` after the filters). -/
structure LLMParsedSyllabus where
  assignments : List LLMAssignmentRaw
  exams : List LLMExamRaw
  activities : List LLMActivityRaw
  course_info : Option CourseInfoRaw
  confidence_score : Option Int
deriving DecidableEq, Repr

/-- Exact match of `/^\d{4}-\d{2}-\d{2}$/`, returning the three fields. -/
def parseIsoYmd (cs : List Char) : Option (Int × Int × Int) :=
  match cs with
  | [y1, y2, y3, y4, '-', m1, m2, '-', d1, d2] =>
    if [y1, y2, y3, y4, m1, m2, d1, d2].all isDigitCh then
      some ((digitsVal [y1, y2, y3, y4] : Int), (digitsVal [m1, m2] : Int),
        (digitsVal [d1, d2] : Int))
    else none
  | _ => none

/-- `new Date(s)` as a day number, `none` for an Invalid Date.  V8 rejects
ISO-format strings whose components are out of range.  Only the date-time
string formats that the core actually constructs (`YYYY-MM-DD`, optionally
followed by `T00:00:00`) are modelled; everything `validateDate` accepts is
conjoined with the `/^\d{4}-\d{2}-\d{2}$/` shape test, so the value of
`new Date` on other inputs never influences a result below. -/
def jsNewDate (s : String) : Option Int :=
  let core :=
    if isPrefixCS "T00:00:00".data (s.data.drop 10) ∧ s.data.length = 19 then
      s.data.take 10
    else s.data
  match parseIsoYmd core with
  | some (y, m, d) => if realDate y m d then some (daysFromCivil y m d) else none
  | none => none

/-- The `validateDate` closure inside `parseLLMResponse` (lines 569–584):
falsy dates fail; placeholder markers (`XX`/`TBD`/`TBA`) fail; otherwise the
string must be a parseable date and match `/^\d{4}-\d{2}-\d{2}$/`. -/
def validateDate (dateStr : Option String) : Bool :=
  match dateStr with
  | none => false
  | some s =>
    if s.isEmpty then false
    else if containsCS s.data "XX".data || containsCS s.data "TBD".data ||
        containsCS s.data "TBA".data then false
    else (jsNewDate s).isSome && (parseIsoYmd s.data).isSome

/-- JavaScript `a || b` on an optional string (`undefined`, `null` and `""`
are falsy). -/
def jsOrStr (o : Option String) (dflt : String) : String :=
  match o with
  | some s => if s.isEmpty then dflt else s
  | none => dflt

/-- How an assignment with an unparseable date is demoted into the
activities bucket (lines 594–599).  JavaScript renders a missing value as
the string `"undefined"` inside the template literal. -/
def demoteAssignment (a : LLMAssignmentRaw) : LLMActivityRaw :=
  { title := a.title
    details := some (jsOrStr a.details ("Due date: " ++ a.due_date.getD "undefined"))
    type := some "other"
    priority := some (jsOrStr a.priority "medium") }

/-- How an exam with an unparseable date is demoted (lines 609–614). -/
def demoteExam (x : LLMExamRaw) : LLMActivityRaw :=
  { title := x.title
    details := some (jsOrStr x.details ("Exam date: " ++ x.date.getD "undefined"))
    type := some "other"
    priority := some (jsOrStr x.priority "medium") }

/-- `parseLLMResponse` after a successful `JSON.parse` (lines 556–623):
require the three lists, filter entries with invalid dates out of
`assignments`/`exams` and append their demoted forms to `activities`. -/
def parseLLMResponse (parsed : LLMResponseRaw) : Except String LLMParsedSyllabus :=
  match parsed.assignments, parsed.exams, parsed.activities with
  | some as, some ex, some acts =>
    let validAs := as.filter (fun a => validateDate a.due_date)
    let invalidAs := (as.filter (fun a => !validateDate a.due_date)).map demoteAssignment
    let validEx := ex.filter (fun x => validateDate x.date)
    let invalidEx := (ex.filter (fun x => !validateDate x.date)).map demoteExam
    .ok { assignments := validAs
          exams := validEx
          activities := acts ++ invalidAs ++ invalidEx
          course_info := parsed.course_info
          confidence_score := parsed.confidence_score }
  | _, _, _ => .error "Missing required fields in LLM response"

/-! ## The date resolver (`utils/dateParser.ts`)

`DateParserService.parseDate` tries an ordered list of `date-fns` format
templates, then the relative `week|day|class|session N` patterns, then the
native `new Date` parse.  The `date-fns` v2 parser is modelled token by
token: numeric tokens consume one up to `n` digits greedily without
backtracking across tokens, `M`/`d` use the special numeric patterns
`/^(1[0-2]|0?[1-9])/` and `/^(3[0-1]|[0-2]?[0-9])/`, month-name tokens
match the English month names case-insensitively, every field is validated
(months 1–12, days against the real month length), missing fields default
from the reference date, and the whole candidate string must be consumed. -/

def MONTHS_FULL : List String :=
  ["January", "February", "March", "April", "May", "June", "July",
   "August", "September", "October", "November", "December"]

def MONTHS_ABBR : List String :=
  ["Jan", "Feb", "Mar", "Apr", "May", "Jun", "Jul", "Aug", "Sep", "Oct",
   "Nov", "Dec"]

inductive FTok
  /-- `M` — numeric month, `/^(1[0-2]|0?[1-9])/`. -/
  | mN
  /-- `MM` — numeric month, 1–2 digits. -/
  | mNN
  /-- `d` — day of month, `/^(3[0-1]|[0-2]?[0-9])/`. -/
  | dN
  /-- `dd` — day of month, 1–2 digits. -/
  | dNN
  /-- `yyyy` — calendar year, 1–4 digits. -/
  | y4
  /-- `yy` — two-digit year, normalized around the reference year. -/
  | y2
  /-- `MMMM` — full English month name. -/
  | monF
  /-- `MMM` — abbreviated English month name. -/
  | monA
  /-- a literal character of the format string. -/
  | lit (c : Char)
deriving DecidableEq, Repr

structure FAcc where
  year : Option Int := none
  month : Option Int := none
  day : Option Int := none
deriving DecidableEq, Repr

/-- 1 up to `maxLen` digits, greedily. -/
def munchDigits (maxLen : Nat) (s : List Char) : Option (Nat × List Char) :=
  let run := (s.takeWhile isDigitCh).length
  let k := min maxLen run
  if k = 0 then none else some (digitsVal (s.take k), s.drop k)

/-- `/^(1[0-2]|0?[1-9])/`. -/
def munchMonth1 (s : List Char) : Option (Nat × List Char) :=
  match s with
  | '1' :: c :: rest =>
    if '0' ≤ c ∧ c ≤ '2' then some (10 + digitVal c, rest) else some (1, c :: rest)
  | '0' :: c :: rest =>
    if '1' ≤ c ∧ c ≤ '9' then some (digitVal c, rest) else none
  | c :: rest => if '1' ≤ c ∧ c ≤ '9' then some (digitVal c, rest) else none
  | [] => none

/-- `/^(3[0-1]|[0-2]?[0-9])/`. -/
def munchDay1 (s : List Char) : Option (Nat × List Char) :=
  match s with
  | '3' :: c :: rest =>
    if '0' ≤ c ∧ c ≤ '1' then some (30 + digitVal c, rest) else some (3, c :: rest)
  | c1 :: c2 :: rest =>
    if ('0' ≤ c1 ∧ c1 ≤ '2') ∧ isDigitCh c2 then
      some (10 * digitVal c1 + digitVal c2, rest)
    else if isDigitCh c1 then some (digitVal c1, c2 :: rest)
    else none
  | [c] => if isDigitCh c then some (digitVal c, []) else none
  | [] => none

/-- Month-name lookup: the first name in the list that is a case-insensitive
prefix of the input, returning the 1-based month number. -/
def munchMonthName (names : List String) (s : List Char) : Option (Nat × List Char) :=
  go names 1
where
  go : List String → Nat → Option (Nat × List Char)
    | [], _ => none
    | n :: ns, i =>
      if isPrefixCI n.data s then some (i, s.drop n.data.length)
      else go ns (i + 1)

/-- `date-fns` two-digit-year normalization relative to the reference
year. -/
def normTwoDigitYear (v refYear : Int) : Int :=
  let absY := if refYear > 0 then refYear else 1 - refYear
  let result :=
    if absY ≤ 50 then (if v = 0 then 100 else v)
    else
      let rangeEnd := absY + 50
      let rangeEndCentury := (rangeEnd.ediv 100) * 100
      v + rangeEndCentury - (if rangeEnd.emod 100 ≤ v then 100 else 0)
  if refYear > 0 then result else 1 - result

def stepTok (refYear : Int) : FTok → FAcc → List Char → Option (FAcc × List Char)
  | .mN, acc, s => (munchMonth1 s).map fun p => ({ acc with month := some (p.1 : Int) }, p.2)
  | .mNN, acc, s =>
    (munchDigits 2 s).bind fun p =>
      if 1 ≤ p.1 ∧ p.1 ≤ 12 then some ({ acc with month := some (p.1 : Int) }, p.2) else none
  | .dN, acc, s => (munchDay1 s).map fun p => ({ acc with day := some (p.1 : Int) }, p.2)
  | .dNN, acc, s => (munchDigits 2 s).map fun p => ({ acc with day := some (p.1 : Int) }, p.2)
  | .y4, acc, s =>
    (munchDigits 4 s).bind fun p =>
      if 1 ≤ p.1 then some ({ acc with year := some (p.1 : Int) }, p.2) else none
  | .y2, acc, s =>
    (munchDigits 2 s).map fun p =>
      ({ acc with year := some (normTwoDigitYear (p.1 : Int) refYear) }, p.2)
  | .monF, acc, s =>
    (munchMonthName MONTHS_FULL s).map fun p => ({ acc with month := some (p.1 : Int) }, p.2)
  | .monA, acc, s =>
    (munchMonthName MONTHS_ABBR s).map fun p => ({ acc with month := some (p.1 : Int) }, p.2)
  | .lit c, acc, s =>
    match s with
    | c' :: rest => if c' = c then some (acc, rest) else none
    | [] => none

/-- Run a format's tokens over the whole string; missing fields default from
the reference date's civil fields; the assembled date must be a real
calendar date (this is `isValid(parsed)`). -/
def runToks (refYear refMonth refDay : Int) :
    List FTok → FAcc → List Char → Option (Int × Int × Int)
  | [], acc, s =>
    if s.isEmpty then
      let y := acc.year.getD refYear
      let m := acc.month.getD refMonth
      let d := acc.day.getD refDay
      if realDate y m d then some (y, m, d) else none
    else none
  | t :: ts, acc, s =>
    (stepTok refYear t acc s).bind fun p => runToks refYear refMonth refDay ts p.1 p.2

/-- `DATE_FORMATS` (lines 117–135 of `dateParser.ts`), in source order. -/
def DATE_FORMATS : List (String × List FTok) :=
  [ ("MM/dd/yyyy", [.mNN, .lit '/', .dNN, .lit '/', .y4])
  , ("M/d/yyyy", [.mN, .lit '/', .dN, .lit '/', .y4])
  , ("MM/dd/yy", [.mNN, .lit '/', .dNN, .lit '/', .y2])
  , ("M/d/yy", [.mN, .lit '/', .dN, .lit '/', .y2])
  , ("yyyy-MM-dd", [.y4, .lit '-', .mNN, .lit '-', .dNN])
  , ("MM-dd-yyyy", [.mNN, .lit '-', .dNN, .lit '-', .y4])
  , ("M-d-yyyy", [.mN, .lit '-', .dN, .lit '-', .y4])
  , ("MMMM dd, yyyy", [.monF, .lit ' ', .dNN, .lit ',', .lit ' ', .y4])
  , ("MMMM d, yyyy", [.monF, .lit ' ', .dN, .lit ',', .lit ' ', .y4])
  , ("MMM dd, yyyy", [.monA, .lit ' ', .dNN, .lit ',', .lit ' ', .y4])
  , ("MMM d, yyyy", [.monA, .lit ' ', .dN, .lit ',', .lit ' ', .y4])
  , ("dd MMM yyyy", [.dNN, .lit ' ', .monA, .lit ' ', .y4])
  , ("d MMM yyyy", [.dN, .lit ' ', .monA, .lit ' ', .y4])
  , ("MMMM dd", [.monF, .lit ' ', .dNN])
  , ("MMM dd", [.monA, .lit ' ', .dNN])
  , ("MM/dd", [.mNN, .lit '/', .dNN])
  , ("M/d", [.mN, .lit '/', .dN]) ]

def tryFormats (fmts : List (String × List FTok)) (s : List Char)
    (refY refM refD : Int) : Option (Int × String) :=
  match fmts with
  | [] => none
  | (name, toks) :: rest =>
    match runToks refY refM refD toks {} s with
    | some (y, m, d) => some (daysFromCivil y m d, name)
    | none => tryFormats rest s refY refM refD

/-- Leftmost occurrence of `/kw\s+(\d+)/i` in the string; returns the digit
capture. -/
def relCapture (kw : String) : List Char → Option (List Char)
  | [] => none
  | c :: cs =>
    match (mLit kw.data (c :: cs)).bind mWs1 with
    | some rest =>
      let ds := rest.takeWhile isDigitCh
      if ds.isEmpty then relCapture kw cs else some ds
    | none => relCapture kw cs

/-- `RELATIVE_PATTERNS` keyword list (lines 138–143), in source order. -/
def RELATIVE_KWS : List String := ["week", "day", "class", "session"]

/-- `parseRelativeDate` (lines 200–220): every relative pattern advances the
reference date by `number - 1` weeks (`addWeeks`). -/
def parseRelativeDate (cleanString : List Char) (referenceDate : Int) :
    Option DateParseResult :=
  go RELATIVE_KWS
where
  go : List String → Option DateParseResult
    | [] => none
    | kw :: kws =>
      match relCapture kw cleanString with
      | some ds =>
        some { date := some (referenceDate + 7 * ((digitsVal ds : Int) - 1))
               confidence := "medium"
               originalText := ⟨cleanString⟩
               parsedFormat := some "relative" }
      | none => go kws

/-- `parseDate(dateString, referenceDate)` (lines 148–195). -/
def parseDate (dateString : String) (referenceDate : Int) : DateParseResult :=
  let cleanString := trimWs dateString.data
  let rc := civilFromDays referenceDate
  match tryFormats DATE_FORMATS cleanString rc.1 rc.2.1 rc.2.2 with
  | some (day, fmt) =>
    { date := some day, confidence := "high", originalText := dateString,
      parsedFormat := some fmt }
  | none =>
    match parseRelativeDate cleanString referenceDate with
    | some r => r
    | none =>
      match jsNewDate ⟨cleanString⟩ with
      | some day =>
        { date := some day, confidence := "medium", originalText := dateString,
          parsedFormat := some "native" }
      | none =>
        { date := none, confidence := "low", originalText := dateString,
          parsedFormat := none }

/-! ## Date extraction (`DateParserService.extractDates`, lines 225–269) -/

def mCh (c : Char) : Matcher := fun s =>
  match s with
  | c' :: rest => if c' = c then some rest else none
  | [] => none

/-- Alternation of case-insensitive literals, tried in order. -/
def mAltLits : List String → Matcher
  | [] => fun _ => none
  | p :: ps => fun s => mLit p.data s <|> mAltLits ps s

/-- `\d{lo,hi}` followed by the continuation `k`, greedy with
backtracking: the longest count is tried first. -/
def mDigitsRange (lo hi : Nat) (k : Matcher) : Matcher := fun s =>
  go (hi - lo) s
where
  go : Nat → Matcher
    | 0, s => (mNDigits lo s).bind k
    | n + 1, s => ((mNDigits (lo + n + 1) s).bind k) <|> go n s

/-- `/\b(\d{1,2}\/\d{1,2}\/\d{2,4})\b/` (the leading `\b` is enforced by the
scan engine). -/
def slashDatePat : Matcher := fun s =>
  mDigitsRange 1 2 (fun s =>
    (mCh '/' s).bind (mDigitsRange 1 2 (fun s =>
      (mCh '/' s).bind (mDigitsRange 2 4 mEndB)))) s

/-- `/\b(January|…|December)\s+\d{1,2},?\s+\d{4}\b/i`. -/
def monthDayYearPat : Matcher := fun s =>
  (mAltLits MONTHS_FULL s).bind fun s =>
  (mWs1 s).bind fun s =>
  mDigitsRange 1 2 (fun s =>
    (mOptChar ',' s).bind fun s =>
    (mWs1 s).bind fun s =>
    (mNDigits 4 s).bind mEndB) s

/-- `/\b\d{1,2}\s+(January|…|December)\s+\d{4}\b/i`. -/
def dayMonthYearPat : Matcher := fun s =>
  mDigitsRange 1 2 (fun s =>
    (mWs1 s).bind fun s =>
    (mAltLits MONTHS_FULL s).bind fun s =>
    (mWs1 s).bind fun s =>
    (mNDigits 4 s).bind mEndB) s

/-- `/\b\d{4}-\d{1,2}-\d{1,2}\b/`. -/
def isoDatePat : Matcher := fun s =>
  (mNDigits 4 s).bind fun s =>
  (mCh '-' s).bind fun s =>
  mDigitsRange 1 2 (fun s =>
    (mCh '-' s).bind (mDigitsRange 1 2 mEndB)) s

/-- `/\b(week|day|class|session)\s+\d+\b/i`. -/
def weekNumPat : Matcher := fun s =>
  (mAltLits RELATIVE_KWS s).bind fun s =>
  (mWs1 s).bind fun s =>
  (mDigits1 s).bind mEndB

/-- The five `datePatterns` of `extractDates`, in source order. -/
def datePatterns : List Matcher :=
  [slashDatePat, monthDayYearPat, dayMonthYearPat, isoDatePat, weekNumPat]

/-- Deduplicate matched substrings case-insensitively, keeping the first
occurrence (the `seenDates` set). -/
def dedupCIAux (seen : List (List Char)) : List (List Char) → List (List Char)
  | [] => []
  | m :: ms =>
    if lowerOf m ∈ seen then dedupCIAux seen ms
    else m :: dedupCIAux (lowerOf m :: seen) ms

/-- The sort comparator of `extractDates` (lines 262–268): confidence tier
descending, then date ascending; a missing date compares equal. -/
def confOrder (c : String) : Int :=
  if c = "high" then 3 else if c = "medium" then 2 else if c = "low" then 1 else 0

def dateResultCmp (a b : DateParseResult) : Int :=
  if a.confidence ≠ b.confidence then confOrder b.confidence - confOrder a.confidence
  else
    match a.date, b.date with
    | some x, some y => x - y
    | _, _ => 0

/-- `Array.prototype.sort` is stable; a stable comparator sort is insertion
sort with the relation «the comparator does not order `b` strictly before
`a`». -/
def sortDateResults (l : List DateParseResult) : List DateParseResult :=
  List.insertionSort (fun a b => dateResultCmp a b ≤ 0) l

def extractDates (text : List Char) (referenceDate : Int) : List DateParseResult :=
  let found := (datePatterns.map (fun p => collectB p none text)).flatten
  let uniq := dedupCIAux [] found
  let results := (uniq.map (fun m => parseDate ⟨m⟩ referenceDate)).filter
    (fun r => r.date.isSome)
  sortDateResults results

/-! ## Deterministic extractor (`syllabusParser.ts`) -/

/-- `cleanText` (lines 153–166). -/
def stripNumLine (l : List Char) : List Char :=
  let a := l.dropWhile jsWs
  let ds := a.takeWhile isDigitCh
  if !ds.isEmpty && (a.drop ds.length).all jsWs then [] else l

/-- `/Page \d+ of \d+/i`. -/
def pageOfPat : Matcher := fun s =>
  (mLit "Page".data s).bind fun s =>
  (mCh ' ' s).bind fun s =>
  (mDigits1 s).bind fun s =>
  (mCh ' ' s).bind fun s =>
  (mLit "of".data s).bind fun s =>
  (mCh ' ' s).bind mDigits1

/-- `\s*` with full backtracking against its continuation (needed where the
continuation can start with a whitespace character, as in
`/\n\s*\n\s*\n/`): the greedy count is tried first. -/
def mWsBt (k : Matcher) : Matcher := fun s =>
  go ((s.takeWhile jsWs).length) s
where
  go : Nat → Matcher
    | 0, s => k s
    | n + 1, s => k (s.drop (n + 1)) <|> go n s

/-- `/\n\s*\n\s*\n/`. -/
def triNlPat : Matcher := fun s =>
  (mCh '\n' s).bind (mWsBt (fun s => (mCh '\n' s).bind (mWsBt (mCh '\n'))))

def cleanText (text : List Char) : List Char :=
  let t1 := wsCollapse ' ' text false
  let t2 := List.intercalate ['\n'] ((splitNl t1).map stripNumLine)
  let t3 := replaceAllP pageOfPat [] t2
  let t4 := (replaceAllP (fun s => (mCh '\x0d' s).bind (mCh '\n')) ['\n'] t3).map
    (fun c => if c = '\x0d' then '\n' else c)
  let t5 := replaceAllP triNlPat ['\n', '\n'] t4
  trimWs t5

/-- Search for the leftmost position where `pre` matches; the following
`\s*(capture+)` is then taken greedily.  When backtracking would only
produce a whitespace-only capture (which the callers immediately `trim` to
the empty string and treat as falsy, exactly like no match), the position is
treated as matchless and the search continues — observationally equal
through the `x?.[1]?.trim() || default` chains this feeds. -/
def searchCap (pre : Matcher) (keep : Char → Bool) : List Char → Option (List Char)
  | [] => none
  | c :: cs =>
    match pre (c :: cs) with
    | some rest =>
      let tight := (rest.dropWhile jsWs).takeWhile keep
      if tight.isEmpty then searchCap pre keep cs else some tight
    | none => searchCap pre keep cs

/-- Search for `pre` followed by `\s*(\d{4})`. -/
def searchCapYear (pre : Matcher) : List Char → Option (List Char)
  | [] => none
  | c :: cs =>
    match (pre (c :: cs)).bind mWs0 with
    | some rest =>
      if 4 ≤ (rest.takeWhile isDigitCh).length then some (rest.take 4)
      else searchCapYear pre cs
    | none => searchCapYear pre cs

def cnPre : Matcher := fun s =>
  (((mLit "course".data s).bind fun t => (mWs1 t).bind (mLit "name".data)) <|>
    mLit "title".data s).bind (mCh ':')

def ccPre : Matcher := fun s =>
  (((mLit "course".data s).bind fun t => (mWs1 t).bind (mLit "code".data)) <|>
    mLit "number".data s).bind (mCh ':')

def semPre : Matcher := fun s =>
  (mLit "semester".data s <|> mLit "term".data s).bind (mCh ':')

def yearPre : Matcher := fun s =>
  (mLit "year".data s <|>
    ((mLit "academic".data s).bind fun t => (mWs1 t).bind (mLit "year".data))).bind
    (mCh ':')

/-- `[A-Z0-9\s]` under the `i` flag. -/
def ccClass (c : Char) : Bool :=
  ('A' ≤ c && c ≤ 'Z') || ('a' ≤ c && c ≤ 'z') || isDigitCh c || jsWs c

/-- JavaScript truthiness of an optional string. -/
def truthyStr (o : Option String) : Bool :=
  match o with
  | some s => !s.isEmpty
  | none => false

/-- `a || b` for an optional integer (`0` is falsy). -/
def jsOrInt (o : Option Int) (dflt : Int) : Int :=
  match o with
  | some v => if v = 0 then dflt else v
  | none => dflt

/-- `extractCourseInfo` (lines 171–195).  `currentYear` is
`new Date().getFullYear()`. -/
def extractCourseInfo (text : List Char)
    (courseName courseCode semester : Option String) (year : Option Int)
    (currentYear : Int) : String × String × Option String × Option Int :=
  if truthyStr courseName && truthyStr courseCode then
    (courseName.getD "", courseCode.getD "", semester, year)
  else
    let cnM := searchCap cnPre (fun c => c ≠ '\n') text
    let ccM := searchCap ccPre ccClass text
    let semM := searchCap semPre (fun c => c ≠ '\n') text
    let yrM := searchCapYear yearPre text
    ( jsOrStr courseName (jsOrStr (cnM.map fun c => (⟨trimWs c⟩ : String)) "Unknown Course")
    , jsOrStr courseCode (jsOrStr (ccM.map fun c => (⟨trimWs c⟩ : String)) "UNKNOWN")
    , some (jsOrStr semester (jsOrStr (semM.map fun c => (⟨trimWs c⟩ : String)) "Unknown"))
    , some (jsOrInt year ((yrM.map fun ds => (digitsVal ds : Int)).getD currentYear)) )

/-- `cleanEventTitle` (lines 276–286): strip a leading keyword prefix,
remove slash dates and month-name dates, collapse whitespace, trim. -/
def TITLE_KWS : List String :=
  ["assignment", "homework", "hw", "exam", "test", "quiz", "reading", "due",
   "deadline"]

def stripTitleKw (s : List Char) : List Char :=
  go TITLE_KWS
where
  go : List String → List Char
    | [] => s
    | kw :: kws =>
      match ((mLit kw.data s).bind (mCh ':')).bind mWs0 with
      | some rest => rest
      | none => go kws

def cleanEventTitle (title : List Char) : List Char :=
  let t1 := stripTitleKw title
  let t2 := removeMatchesB slashDatePat none t1
  let t3 := removeMatchesB monthDayYearPat none t2
  trimWs (wsCollapse ' ' t3 false)

/-- `parseEventFromLine` (lines 227–271), threading the pattern state. -/
def parseEventFromLineSt (st : PatState) (line : List Char)
    (dateResult : DateParseResult) : Option CalendarEvent × PatState :=
  match dateResult.date with
  | none => (none, st)
  | some d =>
    let cleanLine := trimWs line
    let lowerLine := lowerOf cleanLine
    let c := classifyLineSt st lowerLine
    let title := cleanEventTitle cleanLine
    ( some { id := generateEventId ⟨title⟩ d
             title := ⟨title⟩
             description := some ⟨cleanLine⟩
             date := d
             type := c.1.1
             priority := c.1.2
             completed := false }
    , c.2 )

/-- `deduplicateEvents` (lines 300–309): keep the first occurrence of each
event id. -/
def dedupEventsAux (seen : List String) : List CalendarEvent → List CalendarEvent
  | [] => []
  | e :: es =>
    if e.id ∈ seen then dedupEventsAux seen es
    else e :: dedupEventsAux (e.id :: seen) es

def dedupEvents (events : List CalendarEvent) : List CalendarEvent :=
  dedupEventsAux [] events

/-- `.sort((a, b) => a.date.getTime() - b.date.getTime())`: a stable sort
ascending by date. -/
def sortEventsByDate (events : List CalendarEvent) : List CalendarEvent :=
  List.insertionSort (fun a b => a.date ≤ b.date) events

/-- One relevant line: classify it and append the resulting event. -/
def lineStep (r : DateParseResult) (acc : List CalendarEvent × PatState)
    (l : List Char) : List CalendarEvent × PatState :=
  let p := parseEventFromLineSt acc.2 l r
  (acc.1 ++ p.1.toList, p.2)

/-- One date occurrence: `if (!dateResult.date) continue`, then every line
containing the matched text (case-insensitively). -/
def drStep (lines : List (List Char)) (acc : List CalendarEvent × PatState)
    (r : DateParseResult) : List CalendarEvent × PatState :=
  match r.date with
  | none => acc
  | some _ =>
    (lines.filter
        (fun l => containsCS (lowerOf l) (lowerOf r.originalText.data))).foldl
      (lineStep r) acc

/-- `extractEvents` (lines 200–222). -/
def extractEventsSt (st : PatState) (text : List Char)
    (dateResults : List DateParseResult) : List CalendarEvent × PatState :=
  let folded := dateResults.foldl (drStep (splitNl text))
    (([] : List CalendarEvent), st)
  (sortEventsByDate (dedupEvents folded.1), folded.2)

/-- `parseSyllabusWithRegex` (lines 100–148), which never fails in its `try`
branch: all of its steps are total. -/
def parseSyllabusWithRegex (st : PatState) (text : String)
    (courseName courseCode semester : Option String) (year : Option Int)
    (now : Int) : ParsingResult × PatState :=
  let clean := cleanText text.data
  let info := extractCourseInfo clean courseName courseCode semester year
    (civilFromDays now).1
  let dateResults := extractDates clean now
  let p := extractEventsSt st clean dateResults
  let confidence := calculateConfidence p.1 dateResults ⟨clean⟩
  ( { success := true
      data := some { courseName := info.1
                     courseCode := info.2.1
                     semester := info.2.2.1
                     year := info.2.2.2
                     events := p.1
                     rawText := text
                     parsedAt := now }
      error := none
      confidence := confidence
      method := some .regex }
  , p.2 )

/-! ## Parsing orchestrator (`parseSyllabus`, lines 56–95)

The model-assisted attempt is an outbound call; its outcome — a returned
`LLMParsingResult` or a thrown exception — is an input here. -/

/-- `mapPriority` (lines 712–720). -/
def mapPriority (priority : Option String) : Priority :=
  match priority with
  | none => .medium
  | some p =>
    if lowerOf p.data = "urgent".data then .urgent
    else if lowerOf p.data = "high".data then .high
    else if lowerOf p.data = "medium".data then .medium
    else if lowerOf p.data = "low".data then .low
    else .medium

/-- The shared placeholder `new Date('2099-12-31')` for undated
activities. -/
def placeholderDay : Int := daysFromCivil 2099 12 31

/-- The administrative-noise filter on activities (lines 672–690). -/
def isAdminActivity (a : LLMActivityRaw) : Bool :=
  let t := lowerOf a.title.data
  let d := lowerOf (a.details.getD "").data
  containsCS t "office hours".data || containsCS t "email".data ||
  containsCS t "class time".data || containsCS t "conference".data ||
  containsCS t "blackboard".data || containsCS t "twen".data ||
  containsCS t "absence".data || containsCS t "policy".data ||
  containsCS d "office hours".data || containsCS d "email".data ||
  containsCS d "class time".data

/-- `convertToCalendarEvents` (lines 636–707).  The validated date strings
are turned into day numbers with `jsNewDate`; `parseLLMResponse` guarantees
they parse, so the `getD 0` default is never taken in the pipeline (C7
records the provenance). -/
def convertToCalendarEvents (llmData : LLMParsedSyllabus) : List CalendarEvent :=
  let assignmentEvents := llmData.assignments.map fun a =>
    let d := (jsNewDate (a.due_date.getD "")).getD 0
    { id := generateEventIdLLM a.title d
      title := a.title
      description := a.details
      date := d
      type := EventType.assignment
      priority := mapPriority a.priority
      completed := false }
  let examEvents := llmData.exams.map fun x =>
    let d := (jsNewDate (x.date.getD "")).getD 0
    { id := generateEventIdLLM x.title d
      title := x.title
      description := x.details
      date := d
      time := x.time
      type := EventType.exam
      priority := mapPriority x.priority
      completed := false }
  let activityEvents := (llmData.activities.filter fun a => !isAdminActivity a).map
    fun a =>
      { id := generateEventIdLLM a.title placeholderDay
        title := a.title
        description := a.details
        date := placeholderDay
        type := if a.type = some "reading" then EventType.reading else EventType.other
        priority := mapPriority a.priority
        completed := false }
  sortEventsByDate (assignmentEvents ++ examEvents ++ activityEvents)

/-- The `ParsedSyllabus` assembly of `parseSyllabusWithLLM` (lines
110–119): the model's `course_info` fields take JavaScript-`||` precedence
over the caller-supplied values. -/
def llmBuildSyllabus (data : LLMParsedSyllabus) (text : String)
    (courseName courseCode semester : Option String) (year : Option Int)
    (now : Int) : ParsedSyllabus :=
  let ci := data.course_info
  { courseName := jsOrStr (ci.bind (·.course_name))
      (jsOrStr courseName "Unknown Course")
    courseCode := jsOrStr (ci.bind (·.course_code)) (jsOrStr courseCode "UNKNOWN")
    semester := some (jsOrStr (ci.bind (·.semester)) (jsOrStr semester "Unknown"))
    year := some (jsOrInt (ci.bind (·.year)) (jsOrInt year (civilFromDays now).1))
    events := convertToCalendarEvents data
    rawText := text
    parsedAt := now }

/-! ## Helper lemmas -/

theorem syncEventsLoop_spec (items : List (CalendarEvent × Option String))
    (acc : GoogleCalendarSyncResult) :
    syncEventsLoop items acc =
      { acc with
        syncedEvents := acc.syncedEvents + (items.filter (fun p => p.2.isNone)).length
        failedEvents := acc.failedEvents + (items.filter (fun p => p.2.isSome)).length
        errors := acc.errors ++
          items.filterMap (fun p => p.2.map (fun e => syncErrorMsg p.1.title e)) } := by
  induction items generalizing acc with
  | nil => simp [syncEventsLoop]
  | cons hd tl ih =>
    obtain ⟨e, outcome⟩ := hd
    cases outcome with
    | none =>
      simp [syncEventsLoop, ih, List.filter_cons, List.filterMap_cons]
      omega
    | some err =>
      simp [syncEventsLoop, ih, List.filter_cons, List.filterMap_cons]
      omega

/-- A `/g` regex test with `lastIndex = 0` is exactly the pure leftmost
search. -/
theorem testG_zero (p : Matcher) (s : List Char) :
    (testG p s 0).1 = (searchList p s 0).isSome := by
  simp only [testG]
  rw [if_neg (by omega)]
  simp only [List.drop_zero]
  cases searchList p s 0 with
  | none => rfl
  | some e => rfl

/-- Testing a family of patterns whose `lastIndex` values are all 0 gives
the pure any-match semantics. -/
theorem someTestG_fresh (pats : List Matcher) (s : List Char) :
    (someTestG pats (List.replicate pats.length 0) s).1 = famMatches pats s := by
  induction pats with
  | nil => simp [someTestG, famMatches]
  | cons p ps ih =>
    simp only [List.length_cons, List.replicate_succ, someTestG, famMatches,
      List.any_cons]
    rw [← famMatches]
    by_cases hp : (searchList p s 0).isSome
    · simp [testG_zero, hp]
    · simp [testG_zero, hp, ih]

instance : IsTotal CalendarEvent (fun a b => a.date ≤ b.date) :=
  ⟨fun a b => le_total a.date b.date⟩

instance : IsTrans CalendarEvent (fun a b => a.date ≤ b.date) :=
  ⟨fun _ _ _ hab hbc => le_trans hab hbc⟩

theorem sorted_sortEventsByDate (l : List CalendarEvent) :
    List.Sorted (fun a b => a.date ≤ b.date) (sortEventsByDate l) :=
  List.sorted_insertionSort _ l

theorem mem_of_mem_dedupEventsAux {e : CalendarEvent} :
    ∀ (seen : List String) (l : List CalendarEvent),
      e ∈ dedupEventsAux seen l → e ∈ l := by
  intro seen l
  induction l generalizing seen with
  | nil => simp [dedupEventsAux]
  | cons x xs ih =>
    simp only [dedupEventsAux]
    split
    · exact fun h => List.mem_cons_of_mem _ (ih _ h)
    · intro h
      rcases List.mem_cons.1 h with h | h
      · exact h ▸ List.mem_cons_self _ _
      · exact List.mem_cons_of_mem _ (ih _ h)

/-- Every event the per-date line loop adds carries that date occurrence's
resolved date. -/
theorem lineStep_fold_mem (r : DateParseResult) (e : CalendarEvent) :
    ∀ (ls : List (List Char)) (acc : List CalendarEvent × PatState),
      e ∈ (ls.foldl (lineStep r) acc).1 →
      e ∈ acc.1 ∨ ∃ d, r.date = some d ∧ e.date = d := by
  intro ls
  induction ls with
  | nil => exact fun acc h => Or.inl h
  | cons l ls ih =>
    intro acc h
    rcases ih (lineStep r acc l) h with h' | h'
    · simp only [lineStep] at h'
      rcases List.mem_append.1 h' with h'' | h''
      · exact Or.inl h''
      · right
        simp only [parseEventFromLineSt] at h''
        cases hd : r.date with
        | none => rw [hd] at h''; simp at h''
        | some d =>
          rw [hd] at h''
          simp only [Option.toList_some, List.mem_singleton] at h''
          exact ⟨d, rfl, by rw [h'']⟩
    · exact Or.inr h'

theorem drStep_fold_mem (lines : List (List Char)) (e : CalendarEvent) :
    ∀ (drs : List DateParseResult) (acc : List CalendarEvent × PatState),
      e ∈ (drs.foldl (drStep lines) acc).1 →
      e ∈ acc.1 ∨ ∃ dr ∈ drs, dr.date = some e.date := by
  intro drs
  induction drs with
  | nil => exact fun acc h => Or.inl h
  | cons r rs ih =>
    intro acc h
    rcases ih (drStep lines acc r) h with h' | h'
    · simp only [drStep] at h'
      split at h'
      · exact Or.inl h'
      · rename_i d hd
        rcases lineStep_fold_mem r e _ acc h' with h'' | ⟨d', hd', he⟩
        · exact Or.inl h''
        · exact Or.inr ⟨r, List.mem_cons_self _ _, by rw [hd', he]⟩
    · rcases h' with ⟨dr, hdr, hd⟩
      exact Or.inr ⟨dr, List.mem_cons_of_mem _ hdr, hd⟩

/-- A successfully validated response only contains date-validated
assignments and exams. -/
theorem parseLLMResponse_ok_valid (parsed : LLMResponseRaw)
    (data : LLMParsedSyllabus) (h : parseLLMResponse parsed = .ok data) :
    (∀ a ∈ data.assignments, validateDate a.due_date = true) ∧
    (∀ x ∈ data.exams, validateDate x.date = true) := by
  unfold parseLLMResponse at h
  split at h
  · rename_i as ex acts ha he hc
    injection h with h
    subst h
    constructor
    · intro a hmem
      exact (List.mem_filter.1 hmem).2
    · intro x hmem
      exact (List.mem_filter.1 hmem).2
  · cases h

theorem validateDate_isSome {o : Option String} (h : validateDate o = true) :
    ∃ s d, o = some s ∧ jsNewDate s = some d := by
  cases o with
  | none => cases h
  | some s =>
    simp only [validateDate] at h
    split at h
    · cases h
    · split at h
      · cases h
      · rw [Bool.and_eq_true, Option.isSome_iff_exists] at h
        obtain ⟨⟨d, hd⟩, -⟩ := h
        exact ⟨s, d, rfl, hd⟩

theorem filter_none_some_length (l : List (CalendarEvent × Option String)) :
    (l.filter (fun p => p.2.isNone)).length +
      (l.filter (fun p => p.2.isSome)).length = l.length := by
  induction l with
  | nil => simp
  | cons hd tl ih =>
    cases h2 : hd.2 <;> simp [List.filter_cons, h2] <;> omega

end SyllabusCore

namespace SyllabusCore

/-! ## Claim theorems (first group) -/

/-- C10: the deterministic extractor's `generateEventId` and the
model-assisted extractor's `generateEventId` are the same function, and both
produce the lowercased title with whitespace runs replaced by hyphens and all
characters outside `[a-z0-9-]` removed, followed by a hyphen and the event
date's ISO `YYYY-MM-DD` string; hence an event with the same title and date
receives the same id regardless of which path produced it. -/
theorem C10_generateEventId_unified :
    (∀ title date, generateEventId title date = generateEventIdLLM title date) ∧
    (∀ title date, generateEventId title date = specEventId title date) ∧
    (∀ title date, generateEventIdLLM title date = specEventId title date) := by
  refine ⟨fun t d => rfl, fun t d => ?_, fun t d => ?_⟩ <;>
    simp [generateEventId, generateEventIdLLM, specEventId]

/-- C4: the deterministic extractor's confidence score equals the sum of
10 per resolved date capped at 30, 5 per emitted event capped at 25, 5 per
high-confidence date capped at 20, and 5 per distinct event type present
(uncapped), minus 20 when the input text is shorter than 500 characters,
clamped to `[0, 100]` — in particular never below 0. -/
theorem C4_calculateConfidence_formula (events : List CalendarEvent)
    (dateResults : List DateParseResult) (text : String) :
    calculateConfidence events dateResults text =
      max 0 (min 100 (
        min (((dateResults.filter (fun d => d.date.isSome)).length : Int) * 10) 30 +
        min ((events.length : Int) * 5) 25 +
        min (((dateResults.filter (fun d => d.confidence = "high")).length : Int) * 5) 20 +
        ((events.map (fun e => e.type)).dedup.length : Int) * 5 -
        (if (text.length : Int) < 500 then 20 else 0))) ∧
    0 ≤ calculateConfidence events dateResults text ∧
    calculateConfidence events dateResults text ≤ 100 := by
  refine ⟨?_, ?_, ?_⟩
  · unfold calculateConfidence
    split <;> simp [add_sub_assoc]
  · exact le_max_left 0 _
  · unfold calculateConfidence
    exact max_le (by norm_num) (min_le_left 100 _)

/-- C6: the calendar sync adapter inserts each event independently in input
order; a failed insert contributes exactly one error entry built from that
event's title, the counters count successes and failures (summing to the
input length, so no failure aborts the remaining inserts), and overall
`success` is true iff `failedEvents` is zero. -/
theorem C6_syncEvents_accounting (items : List (CalendarEvent × Option String))
    (calendarId : String) :
    (syncEvents items calendarId).syncedEvents =
        (items.filter (fun p => p.2.isNone)).length ∧
    (syncEvents items calendarId).failedEvents =
        (items.filter (fun p => p.2.isSome)).length ∧
    (syncEvents items calendarId).errors =
        items.filterMap (fun p => p.2.map (fun e => syncErrorMsg p.1.title e)) ∧
    (syncEvents items calendarId).syncedEvents +
        (syncEvents items calendarId).failedEvents = items.length ∧
    ((syncEvents items calendarId).success = true ↔
        (syncEvents items calendarId).failedEvents = 0) ∧
    (syncEvents items calendarId).calendarId = calendarId := by
  have h := syncEventsLoop_spec items
    { success := true, syncedEvents := 0, failedEvents := 0, errors := [],
      calendarId := calendarId }
  refine ⟨?_, ?_, ?_, ?_, ?_, ?_⟩ <;>
    simp [syncEvents, h, filter_none_some_length]

/-- C5: for every well-formed model response containing the three required
lists, each assignment or exam entry whose date field fails the strict
`YYYY-MM-DD` real-calendar-date validation (including placeholder markers
like `TBD`/`TBA`/`XX` and missing dates) is removed from its list and
appended to the activities list with its original title preserved; no such
entry is discarded, and the parse still succeeds. -/
theorem C5_invalid_dates_demoted (parsed : LLMResponseRaw)
    (as : List LLMAssignmentRaw) (ex : List LLMExamRaw)
    (acts : List LLMActivityRaw)
    (ha : parsed.assignments = some as) (he : parsed.exams = some ex)
    (hc : parsed.activities = some acts) :
    ∃ out, parseLLMResponse parsed = .ok out ∧
      out.assignments = as.filter (fun a => validateDate a.due_date) ∧
      out.exams = ex.filter (fun x => validateDate x.date) ∧
      out.activities = acts ++
        (as.filter (fun a => !validateDate a.due_date)).map demoteAssignment ++
        (ex.filter (fun x => !validateDate x.date)).map demoteExam ∧
      (∀ a ∈ as, validateDate a.due_date = false →
        (demoteAssignment a).title = a.title ∧ demoteAssignment a ∈ out.activities) ∧
      (∀ x ∈ ex, validateDate x.date = false →
        (demoteExam x).title = x.title ∧ demoteExam x ∈ out.activities) ∧
      validateDate none = false ∧
      validateDate (some "TBD") = false ∧
      validateDate (some "TBA") = false ∧
      validateDate (some "20XX-03-15") = false ∧
      validateDate (some "2025-02-30") = false ∧
      validateDate (some "2025-3-15") = false ∧
      validateDate (some "2025-03-15") = true := by
  refine ⟨{ assignments := as.filter (fun a => validateDate a.due_date)
            exams := ex.filter (fun x => validateDate x.date)
            activities := acts ++
              (as.filter (fun a => !validateDate a.due_date)).map demoteAssignment ++
              (ex.filter (fun x => !validateDate x.date)).map demoteExam
            course_info := parsed.course_info
            confidence_score := parsed.confidence_score },
    ?_, rfl, rfl, rfl, ?_, ?_,
    by decide, by decide, by decide, by decide, by decide, by decide, by decide⟩
  · simp [parseLLMResponse, ha, he, hc, List.append_assoc]
  · intro a hmem hbad
    refine ⟨rfl, ?_⟩
    simp only [List.mem_append]
    exact Or.inl (Or.inr (List.mem_map_of_mem _ (List.mem_filter.2 ⟨hmem, by simp [hbad]⟩)))
  · intro x hmem hbad
    refine ⟨rfl, ?_⟩
    simp only [List.mem_append]
    exact Or.inr (List.mem_map_of_mem _ (List.mem_filter.2 ⟨hmem, by simp [hbad]⟩))

/-- Witness for C5 at a concrete response: an assignment dated `TBD` together
with a validly dated exam. -/
theorem C5_invalid_dates_demoted_witness :
    ∃ out,
      parseLLMResponse
        { assignments := some [{ title := "Essay 1", due_date := some "TBD" }]
          exams := some [{ title := "Final", date := some "2025-03-15" }]
          activities := some [] } = .ok out ∧
      out.assignments = [] ∧
      out.exams = [{ title := "Final", date := some "2025-03-15" }] ∧
      (demoteAssignment { title := "Essay 1", due_date := some "TBD" }).title =
        "Essay 1" ∧
      demoteAssignment { title := "Essay 1", due_date := some "TBD" } ∈
        out.activities := by
  obtain ⟨out, hok, has, hex, -, hdem, -⟩ :=
    C5_invalid_dates_demoted
      { assignments := some [{ title := "Essay 1", due_date := some "TBD" }]
        exams := some [{ title := "Final", date := some "2025-03-15" }]
        activities := some [] }
      [{ title := "Essay 1", due_date := some "TBD" }]
      [{ title := "Final", date := some "2025-03-15" }]
      [] rfl rfl rfl
  obtain ⟨ht, hm⟩ :=
    hdem { title := "Essay 1", due_date := some "TBD" } (by simp) (by decide)
  exact ⟨out, hok, by rw [has]; decide, by rw [hex]; decide, ht, hm⟩

/-- C7: in both extractor paths every constructed event carries a resolved
date — in the deterministic path the date of some date occurrence with a
non-null resolution, in the model-assisted path a date parsed from a
validated `YYYY-MM-DD` string or the far-future placeholder used for
undated activities — and the event list is sorted ascending by date. -/
theorem C7_events_dated_and_sorted :
    (∀ (st : PatState) (text : List Char) (dateResults : List DateParseResult),
      List.Sorted (fun a b => a.date ≤ b.date)
        (extractEventsSt st text dateResults).1 ∧
      ∀ e ∈ (extractEventsSt st text dateResults).1,
        ∃ dr ∈ dateResults, dr.date = some e.date) ∧
    (∀ (parsed : LLMResponseRaw) (data : LLMParsedSyllabus),
      parseLLMResponse parsed = .ok data →
      List.Sorted (fun a b => a.date ≤ b.date) (convertToCalendarEvents data) ∧
      ∀ e ∈ convertToCalendarEvents data,
        (∃ s, jsNewDate s = some e.date ∧
          ((∃ a ∈ data.assignments, a.due_date = some s) ∨
           (∃ x ∈ data.exams, x.date = some s))) ∨
        e.date = placeholderDay) := by
  constructor
  · intro st text drs
    refine ⟨sorted_sortEventsByDate _, ?_⟩
    intro e he
    simp only [extractEventsSt, sortEventsByDate, List.mem_insertionSort,
      dedupEvents] at he
    rcases drStep_fold_mem (splitNl text) e drs ([], st)
        (mem_of_mem_dedupEventsAux [] _ he) with h | h
    · simp at h
    · exact h
  · intro parsed data hok
    obtain ⟨hva, hvx⟩ := parseLLMResponse_ok_valid parsed data hok
    refine ⟨sorted_sortEventsByDate _, ?_⟩
    intro e he
    simp only [convertToCalendarEvents, sortEventsByDate,
      List.mem_insertionSort, List.mem_append, List.mem_map] at he
    rcases he with (h | h) | h
    · obtain ⟨a, ha, he⟩ := h
      obtain ⟨s, d, hsd, hjd⟩ := validateDate_isSome (hva a ha)
      subst he
      exact Or.inl ⟨s, by simp [hsd, hjd], Or.inl ⟨a, ha, hsd⟩⟩
    · obtain ⟨x, hx, he⟩ := h
      obtain ⟨s, d, hsd, hjd⟩ := validateDate_isSome (hvx x hx)
      subst he
      exact Or.inl ⟨s, by simp [hsd, hjd], Or.inr ⟨x, hx, hsd⟩⟩
    · obtain ⟨a, ha, he⟩ := h
      subst he
      exact Or.inr rfl

/-- Witness for C7's model-assisted part at a concrete validated response
(one valid exam, one demoted activity). -/
theorem C7_events_dated_and_sorted_witness :
    List.Sorted (fun a b => a.date ≤ b.date)
      (convertToCalendarEvents
        { assignments := []
          exams := [{ title := "Final", date := some "2025-03-15" }]
          activities := [{ title := "Essay 1", details := some "Due date: TBD",
                           type := some "other", priority := some "medium" }]
          course_info := none
          confidence_score := none }) := by
  exact (C7_events_dated_and_sorted.2
    { assignments := some [{ title := "Essay 1", due_date := some "TBD" }]
      exams := some [{ title := "Final", date := some "2025-03-15" }]
      activities := some [] }
    { assignments := []
      exams := [{ title := "Final", date := some "2025-03-15" }]
      activities := [{ title := "Essay 1", details := some "Due date: TBD",
                       type := some "other", priority := some "medium" }]
      course_info := none
      confidence_score := none }
    (by rfl)).1

/-- C3: for every line, classification (by fresh pattern objects) tests the
four keyword families in the fixed order assignment → exam → reading →
deadline; the first family with a matching pattern determines the event
type with default priorities assignment→high, exam→urgent, reading→medium,
deadline→high; if no family matches, the type is `other` with priority
`medium`. -/
theorem C3_classification_order (line : String) :
    classify line =
      (let low := lowerOf (trimWs line.data)
       if famMatches ASSIGNMENT_PATTERNS low then (.assignment, .high)
       else if famMatches EXAM_PATTERNS low then (.exam, .urgent)
       else if famMatches READING_PATTERNS low then (.reading, .medium)
       else if famMatches DEADLINE_PATTERNS low then (.deadline, .high)
       else (.other, .medium)) := by
  have ha : (someTestG ASSIGNMENT_PATTERNS (List.replicate 10 0)
        (lowerOf (trimWs line.data))).1 =
      famMatches ASSIGNMENT_PATTERNS (lowerOf (trimWs line.data)) :=
    someTestG_fresh _ _
  have he : (someTestG EXAM_PATTERNS (List.replicate 5 0)
        (lowerOf (trimWs line.data))).1 =
      famMatches EXAM_PATTERNS (lowerOf (trimWs line.data)) :=
    someTestG_fresh _ _
  have hr : (someTestG READING_PATTERNS (List.replicate 5 0)
        (lowerOf (trimWs line.data))).1 =
      famMatches READING_PATTERNS (lowerOf (trimWs line.data)) :=
    someTestG_fresh _ _
  have hd : (someTestG DEADLINE_PATTERNS (List.replicate 5 0)
        (lowerOf (trimWs line.data))).1 =
      famMatches DEADLINE_PATTERNS (lowerOf (trimWs line.data)) :=
    someTestG_fresh _ _
  simp only [classify, classifyLineSt, freshPatState]
  split <;> rename_i h1
  · rw [ha] at h1
    simp [h1]
  · rw [ha] at h1
    split <;> rename_i h2
    · rw [he] at h2
      simp [h1, h2]
    · rw [he] at h2
      split <;> rename_i h3
      · rw [hr] at h3
        simp [h1, h2, h3]
      · rw [hr] at h3
        split <;> rename_i h4
        · rw [hd] at h4
          simp [h1, h2, h3, h4]
        · rw [hd] at h4
          simp [h1, h2, h3, h4]

/-- C8 counterexample: in the model-assisted path the model's `course_info`
value overrides a caller-supplied `courseName`, contradicting the claimed
caller precedence. -/
theorem C8_counterexample :
    (llmBuildSyllabus
        { assignments := [], exams := [], activities := []
          course_info := some { course_name := some "Constitutional Law" }
          confidence_score := none }
        "text" (some "Contracts") none none none 0).courseName =
      "Constitutional Law" := by
  decide

/-- C8 amended: in the deterministic path, caller-supplied (truthy) values
for `courseName`, `courseCode`, `semester` and `year` take precedence over
anything extracted from the text; in the model-assisted path the model's
`course_info` fields take precedence, and a caller-supplied value is used
only when the model's field is missing or empty. -/
theorem C8_course_info_precedence :
    (∀ (text : List Char) (cn cc sem : Option String) (yr : Option Int)
       (cy : Int) (n c s : String) (y : Int),
      (cn = some n → !n.isEmpty →
        (extractCourseInfo text cn cc sem yr cy).1 = n) ∧
      (cc = some c → !c.isEmpty →
        (extractCourseInfo text cn cc sem yr cy).2.1 = c) ∧
      (sem = some s → !s.isEmpty →
        (extractCourseInfo text cn cc sem yr cy).2.2.1 = some s) ∧
      (yr = some y → y ≠ 0 →
        (extractCourseInfo text cn cc sem yr cy).2.2.2 = some y)) ∧
    (∀ (data : LLMParsedSyllabus) (text : String)
       (cn cc sem : Option String) (yr : Option Int) (now : Int)
       (v : String) (y : Int),
      (data.course_info.bind (·.course_name) = some v → !v.isEmpty →
        (llmBuildSyllabus data text cn cc sem yr now).courseName = v) ∧
      ((data.course_info.bind (·.course_name) = none ∨
          data.course_info.bind (·.course_name) = some "") →
        cn = some v → !v.isEmpty →
        (llmBuildSyllabus data text cn cc sem yr now).courseName = v) ∧
      (data.course_info.bind (·.course_code) = some v → !v.isEmpty →
        (llmBuildSyllabus data text cn cc sem yr now).courseCode = v) ∧
      ((data.course_info.bind (·.course_code) = none ∨
          data.course_info.bind (·.course_code) = some "") →
        cc = some v → !v.isEmpty →
        (llmBuildSyllabus data text cn cc sem yr now).courseCode = v) ∧
      (data.course_info.bind (·.semester) = some v → !v.isEmpty →
        (llmBuildSyllabus data text cn cc sem yr now).semester = some v) ∧
      ((data.course_info.bind (·.semester) = none ∨
          data.course_info.bind (·.semester) = some "") →
        sem = some v → !v.isEmpty →
        (llmBuildSyllabus data text cn cc sem yr now).semester = some v) ∧
      (data.course_info.bind (·.year) = some y → y ≠ 0 →
        (llmBuildSyllabus data text cn cc sem yr now).year = some y) ∧
      ((data.course_info.bind (·.year) = none ∨
          data.course_info.bind (·.year) = some 0) →
        yr = some y → y ≠ 0 →
        (llmBuildSyllabus data text cn cc sem yr now).year = some y)) := by
  constructor
  · intro text cn cc sem yr cy n c s y
    refine ⟨?_, ?_, ?_, ?_⟩
    · rintro rfl hn
      simp only [extractCourseInfo]
      split <;> rename_i h
      · rfl
      · simp_all [jsOrStr, truthyStr]
    · rintro rfl hc
      simp only [extractCourseInfo]
      split <;> rename_i h
      · rfl
      · simp_all [jsOrStr, truthyStr]
    · rintro rfl hs
      simp only [extractCourseInfo]
      split <;> rename_i h
      · rfl
      · simp_all [jsOrStr, truthyStr]
    · rintro rfl hy
      simp only [extractCourseInfo]
      split <;> rename_i h
      · rfl
      · simp_all [jsOrInt, truthyStr]
  · intro data text cn cc sem yr now v y
    have hemp : "".isEmpty = true := rfl
    refine ⟨?_, ?_, ?_, ?_, ?_, ?_, ?_, ?_⟩
    · intro hv hne
      simp only [Bool.not_eq_true'] at hne
      simp [llmBuildSyllabus, hv, jsOrStr, hne]
    · intro h hcn hne
      simp only [Bool.not_eq_true'] at hne
      subst hcn
      rcases h with h | h <;> simp [llmBuildSyllabus, jsOrStr, h, hne, hemp]
    · intro hv hne
      simp only [Bool.not_eq_true'] at hne
      simp [llmBuildSyllabus, hv, jsOrStr, hne]
    · intro h hcc hne
      simp only [Bool.not_eq_true'] at hne
      subst hcc
      rcases h with h | h <;> simp [llmBuildSyllabus, jsOrStr, h, hne, hemp]
    · intro hv hne
      simp only [Bool.not_eq_true'] at hne
      simp [llmBuildSyllabus, hv, jsOrStr, hne]
    · intro h hsem hne
      simp only [Bool.not_eq_true'] at hne
      subst hsem
      rcases h with h | h <;> simp [llmBuildSyllabus, jsOrStr, h, hne, hemp]
    · intro hy hne
      simp [llmBuildSyllabus, hy, jsOrInt, hne]
    · intro h hyr hne
      subst hyr
      rcases h with h | h <;> simp [llmBuildSyllabus, jsOrInt, h, hne]

/-- Witness for C8's amended statement at concrete inputs. -/
theorem C8_course_info_precedence_witness :
    (extractCourseInfo "Course Name: History".data (some "Contracts")
        (some "LAW 101") none none 2025).1 = "Contracts" ∧
    (llmBuildSyllabus
        { assignments := [], exams := [], activities := []
          course_info := some { course_name := some "Constitutional Law" }
          confidence_score := none }
        "t" (some "Contracts") none none none 0).courseName =
      "Constitutional Law" ∧
    (llmBuildSyllabus
        { assignments := [], exams := [], activities := []
          course_info := none, confidence_score := none }
        "t" (some "Contracts") none none none 0).courseName = "Contracts" ∧
    (llmBuildSyllabus
        { assignments := [], exams := [], activities := []
          course_info := some { course_code := some "LAW 201",
                                semester := some "Fall", year := some 2024 }
          confidence_score := none }
        "t" none (some "LAW 101") (some "Spring") (some 2023) 0).courseCode =
      "LAW 201" ∧
    (llmBuildSyllabus
        { assignments := [], exams := [], activities := []
          course_info := some { course_code := some "LAW 201",
                                semester := some "Fall", year := some 2024 }
          confidence_score := none }
        "t" none (some "LAW 101") (some "Spring") (some 2023) 0).semester =
      some "Fall" ∧
    (llmBuildSyllabus
        { assignments := [], exams := [], activities := []
          course_info := some { course_code := some "LAW 201",
                                semester := some "Fall", year := some 2024 }
          confidence_score := none }
        "t" none (some "LAW 101") (some "Spring") (some 2023) 0).year =
      some 2024 ∧
    (llmBuildSyllabus
        { assignments := [], exams := [], activities := []
          course_info := none, confidence_score := none }
        "t" none (some "LAW 101") (some "Spring") (some 2023) 0).year =
      some 2023 := by
  refine ⟨?_, ?_, ?_, ?_, ?_, ?_, ?_⟩
  · exact (C8_course_info_precedence.1 "Course Name: History".data
      (some "Contracts") (some "LAW 101") none none 2025 "Contracts" ""
      "" 0).1 rfl (by decide)
  · exact (C8_course_info_precedence.2
      { assignments := [], exams := [], activities := []
        course_info := some { course_name := some "Constitutional Law" }
        confidence_score := none }
      "t" (some "Contracts") none none none 0 "Constitutional Law" 0).1 rfl
      (by decide)
  · exact (C8_course_info_precedence.2
      { assignments := [], exams := [], activities := []
        course_info := none, confidence_score := none }
      "t" (some "Contracts") none none none 0 "Contracts" 0).2.1 (Or.inl rfl)
      rfl (by decide)
  · exact (C8_course_info_precedence.2
      { assignments := [], exams := [], activities := []
        course_info := some { course_code := some "LAW 201",
                              semester := some "Fall", year := some 2024 }
        confidence_score := none }
      "t" none (some "LAW 101") (some "Spring") (some 2023) 0
      "LAW 201" 0).2.2.1 rfl (by decide)
  · exact (C8_course_info_precedence.2
      { assignments := [], exams := [], activities := []
        course_info := some { course_code := some "LAW 201",
                              semester := some "Fall", year := some 2024 }
        confidence_score := none }
      "t" none (some "LAW 101") (some "Spring") (some 2023) 0
      "Fall" 0).2.2.2.2.1 rfl (by decide)
  · exact (C8_course_info_precedence.2
      { assignments := [], exams := [], activities := []
        course_info := some { course_code := some "LAW 201",
                              semester := some "Fall", year := some 2024 }
        confidence_score := none }
      "t" none (some "LAW 101") (some "Spring") (some 2023) 0
      "" 2024).2.2.2.2.2.2.1 rfl (by decide)
  · exact (C8_course_info_precedence.2
      { assignments := [], exams := [], activities := []
        course_info := none, confidence_score := none }
      "t" none (some "LAW 101") (some "Spring") (some 2023) 0
      "" 2023).2.2.2.2.2.2.2 (Or.inl rfl) rfl (by decide)

/-- C9: parsing the same text twice in the same process with the same
reference date does not yield event sets equal up to `type` — the
class-level `/g` regexes keep their `lastIndex` between calls, so the
second parse of `"Homework 1 due 01/02/2024"` misses the `homework` keyword
and classifies the same event as `other`/`medium` instead of
`assignment`/`high` (ids, titles and dates agree). -/
theorem C9_repeat_parse_divergence :
    (parseSyllabusWithRegex freshPatState "Homework 1 due 01/02/2024"
        none none none none (daysFromCivil 2025 1 6)).1.data.map
        (fun d => d.events.map fun e => (e.id, e.title, e.date)) =
      (parseSyllabusWithRegex
          (parseSyllabusWithRegex freshPatState "Homework 1 due 01/02/2024"
            none none none none (daysFromCivil 2025 1 6)).2
          "Homework 1 due 01/02/2024"
          none none none none (daysFromCivil 2025 1 6)).1.data.map
        (fun d => d.events.map fun e => (e.id, e.title, e.date)) ∧
    (parseSyllabusWithRegex freshPatState "Homework 1 due 01/02/2024"
        none none none none (daysFromCivil 2025 1 6)).1.data.map
        (fun d => d.events.map fun e => (e.type, e.priority)) =
      some [(.assignment, .high)] ∧
    (parseSyllabusWithRegex
        (parseSyllabusWithRegex freshPatState "Homework 1 due 01/02/2024"
          none none none none (daysFromCivil 2025 1 6)).2
        "Homework 1 due 01/02/2024"
        none none none none (daysFromCivil 2025 1 6)).1.data.map
        (fun d => d.events.map fun e => (e.type, e.priority)) =
      some [(.other, .medium)] := by
  refine ⟨?_, ?_, ?_⟩ <;> decide

end SyllabusCore
